import Mathlib

/-!
A shallow embedding of the REST-to-D-Bus bridge implemented in
src/include/openbmc_dbus_rest.hpp (C++ namespace crow::openbmc_mapper),
together with theorems checking its natural-language specification against
the code.  JSON values model nlohmann::json, bus messages are modelled as
the ordered list of tokens appended through the sd_bus message-builder
calls, and the asynchronous fan-out/refcount pattern is modelled as a
transition system on an explicit state.
-/

namespace Bmcweb

/-- nlohmann::json values.  Parsed non-negative integers are
`number_unsigned` (`juint`), negative ones `number_integer` (`jint`);
`get_ptr<const int64_t *>` is non-null exactly on `jint`,
`get_ptr<const uint64_t *>` exactly on `juint`, and so on.  Doubles are
modelled as rationals (no claim exercises floating point rounding). -/
inductive Json where
  | null
  | jbool (b : Bool)
  | jint (v : Int)
  | juint (v : Nat)
  | jfloat (v : Rat)
  | jstr (s : String)
  | jarr (elems : List Json)
  | jobj (entries : List (String × Json))

/-- Concatenation of a list of strings, in order. -/
def strConcat (l : List String) : String :=
  ⟨(l.map String.data).flatten⟩

/-- The while loop of dbus_arg_split (lines 159-195).  `ret` is represented
as `done` (the completed elements) together with `cur` (the element
`ret.back()` currently being extended); `ret.push_back("")` moves `cur`
into `done` and starts a fresh element.  The C++ pushes a new element only
after advancing the character and checking it is not one past the end,
which is why the `[]`/cons distinction on the remaining characters appears
inside the close-bracket and default branches. -/
def splitLoop : List Char → Int → List (List Char) → List Char → List (List Char)
  | [], _, done, cur => done ++ [cur]
  | c :: rest, depth, done, cur =>
    if c = 'a' then
      splitLoop rest depth done (cur ++ [c])
    else if c = '(' ∨ c = '{' then
      splitLoop rest (depth + 1) done (cur ++ [c])
    else if c = ')' ∨ c = '}' then
      if depth - 1 = 0 then
        if rest = [] then done ++ [cur ++ [c]]
        else splitLoop rest (depth - 1) (done ++ [cur ++ [c]]) []
      else splitLoop rest (depth - 1) done (cur ++ [c])
    else
      if depth = 0 then
        if rest = [] then done ++ [cur ++ [c]]
        else splitLoop rest depth (done ++ [cur ++ [c]]) []
      else splitLoop rest depth done (cur ++ [c])

/-- dbus_arg_split (lines 153-196): split a signature string into its
top-level type codes.  The C++ function ends without an explicit
`return ret;` after the loop (the spec flags this fall-through and directs
that the computed `ret` is the authoritative result); the embedding
returns the `ret` the loop computes. -/
def dbus_arg_split (s : String) : List String :=
  if s.data = [] then [] else (splitLoop s.data 0 [] []).map (fun l => ⟨l⟩)

lemma splitLoop_flatten (cs : List Char) : ∀ (depth : Int) (done : List (List Char))
    (cur : List Char), (splitLoop cs depth done cur).flatten = done.flatten ++ cur ++ cs := by
  induction cs with
  | nil =>
    intro depth done cur
    simp [splitLoop]
  | cons c rest ih =>
    intro depth done cur
    rw [splitLoop]
    by_cases ha : c = 'a'
    · simp only [ha, if_true]
      rw [ih]
      simp
    · rw [if_neg ha]
      by_cases hopen : c = '(' ∨ c = '{'
      · rw [if_pos hopen, ih]
        simp
      · rw [if_neg hopen]
        by_cases hclose : c = ')' ∨ c = '}'
        · rw [if_pos hclose]
          by_cases hdep : depth - 1 = 0
          · rw [if_pos hdep]
            by_cases hrest : rest = []
            · subst hrest; simp
            · rw [if_neg hrest, ih]
              simp
          · rw [if_neg hdep, ih]
            simp
        · rw [if_neg hclose]
          by_cases hdep : depth = 0
          · rw [if_pos hdep]
            by_cases hrest : rest = []
            · subst hrest; simp
            · rw [if_neg hrest, ih]
              simp
          · rw [if_neg hdep, ih]
            simp

lemma strConcat_map_mk (l : List (List Char)) :
    strConcat (l.map fun x => (⟨x⟩ : String)) = ⟨l.flatten⟩ := by
  simp only [strConcat, List.map_map]
  congr 1
  induction l with
  | nil => rfl
  | cons h t ih => simp [ih]

/-- Claim C3: for every signature string S, concatenating in order the
elements of the list returned by dbus_arg_split yields exactly S.  Every
branch of the loop appends the current character to `ret.back()` exactly
once and advances exactly once, so the elements partition the input. -/
theorem dbus_arg_split_concat_eq (s : String) : strConcat (dbus_arg_split s) = s := by
  rw [dbus_arg_split]
  by_cases h : s.data = []
  · rw [if_pos h]
    cases s with
    | mk data => cases h; rfl
  · rw [if_neg h, strConcat_map_mk, splitLoop_flatten]
    cases s with
    | mk data => rfl

/-- Sanity check from the spec's contract: `"aia{sv}"` splits into
`["ai", "a{sv}"]`. -/
example : dbus_arg_split "aia{sv}" = ["ai", "a{sv}"] := by decide

/-- A bus message under construction: the ordered tokens appended through
sd_bus_message_append_basic / open_container / close_container.  Container
kinds use the SD_BUS_TYPE_* characters: 'a' array, 'v' variant, 'r'
struct, 'e' dict entry.  Signed casts are recorded after wrapping, model
of the C++ static_cast. -/
inductive BusTok where
  | basicStr (code : Char) (v : String)
  | basicInt (code : Char) (v : Int)
  | basicNat (code : Char) (v : Nat)
  | basicFloat (code : Char) (v : Rat)
  | openContainer (kind : Char) (contents : String)
  | closeContainer
deriving DecidableEq

/-- Two's-complement wrap of an integer to `bits` bits (C++ static_cast to
a narrower signed type). -/
def wrapSigned (bits : Nat) (v : Int) : Int :=
  (v + 2 ^ (bits - 1)) % 2 ^ bits - 2 ^ (bits - 1)

/-- get_ptr<const int64_t *>: non-null exactly on number_integer. -/
def jsonGetInt : Json → Option Int
  | .jint v => some v
  | _ => none

/-- get_ptr<const uint64_t *>: non-null exactly on number_unsigned. -/
def jsonGetUInt : Json → Option Nat
  | .juint v => some v
  | _ => none

/-- get_ptr<const std::string *>. -/
def jsonGetStr : Json → Option String
  | .jstr s => some s
  | _ => none

/-- get_ptr<const double *>. -/
def jsonGetFloat : Json → Option Rat
  | .jfloat v => some v
  | _ => none

/-- get_ptr<const bool *>. -/
def jsonGetBool : Json → Option Bool
  | .jbool b => some b
  | _ => none

/-- The sequence nlohmann::json begin()..end() iterates: elements of an
array, values of an object, nothing for null, the value itself for a
primitive. -/
def jsonElements : Json → List Json
  | .jarr xs => xs
  | .jobj kvs => kvs.map (fun p => p.2)
  | .null => []
  | j => [j]

/-- The sequence j.items() iterates: key/value pairs of an object, index
keys for an array, nothing for null, an empty key for a primitive. -/
def jsonItems : Json → List (String × Json)
  | .jobj kvs => kvs
  | .jarr xs => xs.enum.map (fun p => (toString p.1, p.2))
  | .null => []
  | j => [("", j)]

/-- Whether the string starts with the character (boost::starts_with with a
one-character pattern). -/
def strHeadIs (s : String) (c : Char) : Bool :=
  match s.data with
  | [] => false
  | d :: _ => d == c

/-- Whether the string ends with the character (boost::ends_with with a
one-character pattern). -/
def strLastIs (s : String) (c : Char) : Bool :=
  s.data.getLast? == some c

/-- substr(1) — and also substr(1, size()-1), which from index 1 takes all
remaining characters, keeping a trailing bracket. -/
def strDrop1 (s : String) : String :=
  ⟨s.data.drop 1⟩

/-- boost::istarts_with(s, "t"): the first character, lowercased, is 't'. -/
def strIStartsWithT (s : String) : Bool :=
  match s.data with
  | [] => false
  | c :: _ => c == 't' || c == 'T'

/-- The array-encoding loop of convert_json_to_dbus (lines 326-334):
`for (it = j->begin(); it != j->end(); ++it) { r = convert(...); it++; }`.
The iterator is incremented both by the loop header and inside the body,
so the loop visits the elements at indices 0, 2, 4, …; on an odd-length
array the C++ iterator would additionally run past end() (undefined
behaviour), read here as stopping.  Modelled by consuming the element list
two at a time. -/
def arrayEncodeLoop (enc : List BusTok → Json → Except Int (List BusTok)) :
    List Json → List BusTok → Except Int (List BusTok)
  | [], m => .ok m
  | [x], m =>
    match enc m x with
    | .error e => .error e
    | .ok m2 => .ok m2
  | x :: _ :: rest, m =>
    match enc m x with
    | .error e => .error e
    | .ok m2 => arrayEncodeLoop enc rest m2

/-- The struct-encoding loop (lines 361-371): iterate the codes, consuming
one element of j per code; running out of elements returns -1. -/
def structEncodeLoop (rec : List BusTok → String → Json → Except Int (List BusTok)) :
    List Json → List String → List BusTok → Except Int (List BusTok)
  | _, [], m => .ok m
  | elems, code :: rest, m =>
    match elems with
    | [] => .error (-1)
    | e :: es =>
      match rec m code e with
      | .error err => .error err
      | .ok m2 => structEncodeLoop rec es rest m2

/-- The dict-entry loop (lines 384-394): for each item, encode the key
string against the key type and the value against the value type. -/
def dictEncodeLoop (rec : List BusTok → String → Json → Except Int (List BusTok))
    (keyType valueType : String) :
    List (String × Json) → List BusTok → Except Int (List BusTok)
  | [], m => .ok m
  | (k, v) :: rest, m =>
    match rec m keyType (Json.jstr k) with
    | .error e => .error e
    | .ok m1 =>
      match rec m1 valueType v with
      | .error e => .error e
      | .ok m2 => dictEncodeLoop rec keyType valueType rest m2

/-- The outer loop of convert_json_to_dbus over the split type codes
(lines 209-406).  When there is more than one code the value iterator j_it
is dereferenced after an end() check (line 213, modelled as a bounds
check), incremented once there (line 217) and once more at the bottom of
the loop (line 404), so with multiple codes every other element of the
input is consumed. -/
def convertCodesLoop (step : List BusTok → String → Json → Except Int (List BusTok))
    (multi : Bool) (elems : List Json) (inputJson : Json) :
    List String → List BusTok → Nat → Except Int (List BusTok)
  | [], m, _ => .ok m
  | code :: rest, m, jIdx =>
    if multi then
      if h : jIdx < elems.length then
        match step m code (elems.get ⟨jIdx, h⟩) with
        | .error e => .error e
        | .ok m2 => convertCodesLoop step multi elems inputJson rest m2 (jIdx + 2)
      else .error (-2)
    else
      match step m code inputJson with
      | .error e => .error e
      | .ok m2 => convertCodesLoop step multi elems inputJson rest m2 jIdx

/-- The body of convert_json_to_dbus for one type code (lines 219-401).
`rec` is the recursive call for contained types; `inputJson` is the whole
input (the variant case recurses on input_json, not on j, line 346) and
`argType` the whole signature (the struct case re-splits arg_type, not the
contained type, line 362).  The bool case reproduces line 266 faithfully:
`bool_int = b ? 1 : 0` tests the pointer b, which is non-null in that
branch, not the pointee.  The "d" case passes double_value to the builder
without a null check; a null pointer dereference is modelled as error -4. -/
def convertOne (rec : List BusTok → String → Json → Except Int (List BusTok))
    (m : List BusTok) (argCode : String) (j inputJson : Json) (argType : String) :
    Except Int (List BusTok) :=
  let intValue0 := jsonGetInt j
  let uintValue := jsonGetUInt j
  let stringValue := jsonGetStr j
  let doubleValue0 := jsonGetFloat j
  let boolValue := jsonGetBool j
  let intValue : Option Int :=
    match uintValue, intValue0 with
    | some u, none => some (wrapSigned 64 (u : Int))
    | _, _ => intValue0
  let doubleValue1 : Option Rat :=
    match uintValue, doubleValue0 with
    | some u, none => some ((u : Nat) : Rat)
    | _, _ => doubleValue0
  let doubleValue : Option Rat :=
    match intValue, doubleValue1 with
    | some v, none => some ((v : Int) : Rat)
    | _, _ => doubleValue1
  if argCode = "s" then
    match stringValue with
    | none => .error (-1)
    | some s => .ok (m ++ [.basicStr 's' s])
  else if argCode = "i" then
    match intValue with
    | none => .error (-1)
    | some v => .ok (m ++ [.basicInt 'i' (wrapSigned 32 v)])
  else if argCode = "b" then
    match intValue with
    | some v => .ok (m ++ [.basicInt 'b' (if 0 < v then 1 else 0)])
    | none =>
      match boolValue with
      | some _ => .ok (m ++ [.basicInt 'b' 1])
      | none =>
        match stringValue with
        | some s => .ok (m ++ [.basicInt 'b' (if strIStartsWithT s then 1 else 0)])
        | none => .error (-1)
  else if argCode = "n" then
    match intValue with
    | none => .error (-1)
    | some v => .ok (m ++ [.basicInt 'n' (wrapSigned 16 v)])
  else if argCode = "x" then
    match intValue with
    | none => .error (-1)
    | some v => .ok (m ++ [.basicInt 'x' v])
  else if argCode = "y" then
    match uintValue with
    | none => .error (-1)
    | some u => .ok (m ++ [.basicNat 'y' (u % 2 ^ 8)])
  else if argCode = "q" then
    match uintValue with
    | none => .error (-1)
    | some u => .ok (m ++ [.basicNat 'q' (u % 2 ^ 16)])
  else if argCode = "u" then
    match uintValue with
    | none => .error (-1)
    | some u => .ok (m ++ [.basicNat 'u' (u % 2 ^ 32)])
  else if argCode = "t" then
    match uintValue with
    | none => .error (-1)
    | some u => .ok (m ++ [.basicNat 't' u])
  else if argCode = "d" then
    match doubleValue with
    | none => .error (-4)
    | some q => .ok (m ++ [.basicFloat 'd' q])
  else if strHeadIs argCode 'a' then
    let containedType := strDrop1 argCode
    let m1 := m ++ [.openContainer 'a' containedType]
    match arrayEncodeLoop (fun m2 e => rec m2 containedType e) (jsonElements j) m1 with
    | .error e => .error e
    | .ok m2 => .ok (m2 ++ [.closeContainer])
  else if strHeadIs argCode 'v' then
    let containedType := strDrop1 argCode
    let m1 := m ++ [.openContainer 'v' containedType]
    match rec m1 containedType inputJson with
    | .error e => .error e
    | .ok m2 => .ok (m2 ++ [.closeContainer])
  else if strHeadIs argCode '(' && strLastIs argCode ')' then
    let containedType := strDrop1 argCode
    let m1 := m ++ [.openContainer 'r' containedType]
    match structEncodeLoop rec (jsonElements j) (dbus_arg_split argType) m1 with
    | .error e => .error e
    | .ok m2 => .ok (m2 ++ [.closeContainer])
  else if strHeadIs argCode '{' && strLastIs argCode '}' then
    let containedType := strDrop1 argCode
    let m1 := m ++ [.openContainer 'e' containedType]
    match dbus_arg_split containedType with
    | [keyType, valueType] =>
      match dictEncodeLoop rec keyType valueType (jsonItems j) m1 with
      | .error e => .error e
      | .ok m2 => .ok (m2 ++ [.closeContainer])
    | _ => .error (-1)
  else .error (-2)

/-- One unfolding of convert_json_to_dbus: split the signature, then run
the code loop with the per-code body. -/
def convertStep (rec : List BusTok → String → Json → Except Int (List BusTok))
    (m : List BusTok) (argType : String) (inputJson : Json) : Except Int (List BusTok) :=
  let argTypes := dbus_arg_split argType
  convertCodesLoop (fun m1 code j => convertOne rec m1 code j inputJson argType)
    (decide (1 < argTypes.length)) (jsonElements inputJson) inputJson argTypes m 0

/-- convert_json_to_dbus (lines 198-407), with fuel bounding the recursion
depth.  Fuel exhaustion returns -3, a code the C++ cannot reach for the
concrete evaluations below; the C++ function itself also genuinely
diverges on struct codes (its struct case re-splits the full arg_type,
line 362).  Like dbus_arg_split, the C++ function lacks a final return
after its loop; the embedding returns the message the loop builds. -/
def convert_json_to_dbus : Nat → List BusTok → String → Json → Except Int (List BusTok)
  | 0, _, _, _ => .error (-3)
  | fuel + 1, m, argType, inputJson =>
    convertStep (fun m2 t j2 => convert_json_to_dbus fuel m2 t j2) m argType inputJson

/-- Claim C5 (code bug): encoding the two-element JSON array [1, 2]
against signature "ai" opens the array container and closes it, but
encodes only the element at index 0 — the loop increments its iterator
twice per pass (lines 326 and 333), so the element 2 is skipped, where the
claim (and the table in the spec) says every element is encoded in
order. -/
theorem convert_array_skips_odd_elements :
    convert_json_to_dbus 4 [] "ai" (Json.jarr [Json.juint 1, Json.juint 2]) =
      Except.ok [BusTok.openContainer 'a' "i", BusTok.basicInt 'i' 1,
        BusTok.closeContainer] := rfl

/-- Claim C6 (code bug): encoding JSON false against signature "b" appends
bus true — line 266 computes `bool_int = b ? 1 : 0` from the non-null
pointer b instead of the pointee *b — where the claim says JSON false
encodes as bus false.  The integer-0 case, by contrast, encodes as bus
false exactly as claimed. -/
theorem convert_bool_false_encodes_as_true :
    convert_json_to_dbus 2 [] "b" (Json.jbool false) =
        Except.ok [BusTok.basicInt 'b' 1] ∧
      convert_json_to_dbus 2 [] "b" (Json.juint 0) =
        Except.ok [BusTok.basicInt 'b' 0] :=
  ⟨rfl, rfl⟩

/-- The HTTP statuses the embedded handlers assign (boost::beast::http::status;
`ok` is the default a crow::response starts with). -/
inductive HttpStatus where
  | ok
  | badRequest
  | forbidden
  | notFound
  | methodNotAllowed
  | internalServerError
deriving DecidableEq

/-- A crow::response as the handlers observe it: its status and its JSON
body (json_value, a null JSON value by default). -/
structure Response where
  status : HttpStatus
  body : Json

/-- The alternatives of DbusRestVariantType (lines 66-69). -/
inductive DbusRestVariant where
  | tupleVec (v : List (String × String × String))
  | str (s : String)
  | i64 (v : Int)
  | u64 (v : Nat)
  | dbl (v : Rat)
  | i32 (v : Int)
  | u32 (v : Nat)
  | i16 (v : Int)
  | u16 (v : Nat)
  | u8 (v : Nat)
  | boolean (b : Bool)

/-- The apply_visitor assignment `property_json = val`: nlohmann stores
signed integers as number_integer, unsigned ones as number_unsigned, bools
as JSON bools, and a vector of string tuples as an array of arrays. -/
def variantToJson : DbusRestVariant → Json
  | .tupleVec v =>
    Json.jarr (v.map fun t => Json.jarr [Json.jstr t.1, Json.jstr t.2.1, Json.jstr t.2.2])
  | .str s => Json.jstr s
  | .i64 v => Json.jint v
  | .u64 v => Json.juint v
  | .dbl v => Json.jfloat v
  | .i32 v => Json.jint v
  | .u32 v => Json.juint v
  | .i16 v => Json.jint v
  | .u16 v => Json.juint v
  | .u8 v => Json.juint v
  | .boolean b => Json.jbool b

/-- Replace the value at a key of an association list, or append it.  The
spec states insertion order is not observable, so the assoc-list position
of keys is not load-bearing. -/
def setAssoc : List (String × Json) → String → Json → List (String × Json)
  | [], key, v => [(key, v)]
  | (k, w) :: rest, key, v =>
    if k = key then (k, v) :: rest else (k, w) :: setAssoc rest key v

/-- nlohmann operator[] assignment `j[key] = v` (on null, the value first
becomes an empty object). -/
def objSetKey (j : Json) (key : String) (v : Json) : Json :=
  match j with
  | .jobj kvs => .jobj (setAssoc kvs key v)
  | _ => .jobj [(key, v)]

/-- nlohmann operator[] read `j[key]`: the stored value, or null when the
key is absent. -/
def objGet (j : Json) (key : String) : Json :=
  match j with
  | .jobj kvs =>
    match kvs.find? (fun p => p.1 == key) with
    | some p => p.2
    | none => Json.null
  | _ => Json.null

/-- json::is_null(). -/
def jsonIsNull : Json → Bool
  | .null => true
  | _ => false

/-- Lines 104-110: after a decoded property value lands in the response
JSON, a bool value is replaced by the integer 1 or 0 (the legacy dbus-rest
convention). -/
def boolQuirk : Json → Json
  | .jbool b => Json.jint (if b then 1 else 0)
  | pj => pj

/-- Lines 98-111 of get_managed_objects_for_enumerate: store one decoded
property into the per-object JSON, applying the bool quirk. -/
def gmoAddProperty (objectJson : Json) (prop : String × DbusRestVariant) : Json :=
  objSetKey objectJson prop.1 (boolQuirk (variantToJson prop.2))

/-- Lines 88-113: merge one managed object's interfaces' properties into
the shared transaction JSON under the object's path. -/
def gmoAddObject (dataJson : Json)
    (obj : String × List (String × List (String × DbusRestVariant))) : Json :=
  let objectJson0 := objGet dataJson obj.1
  let objectJson1 := if jsonIsNull objectJson0 then Json.jobj [] else objectJson0
  let objectJson2 := obj.2.foldl (fun oj iface => iface.2.foldl gmoAddProperty oj) objectJson1
  objSetKey dataJson obj.1 objectJson2

/-- The GetManagedObjects reply as typed by ManagedObjectType:
path → interface → property name → variant. -/
abbrev ManagedObjectType :=
  List (String × List (String × List (String × DbusRestVariant)))

/-- The body of the GetManagedObjects callback (lines 81-114) before the
finalization check: on a bus error the transaction JSON is left untouched
(the error is only logged), otherwise every object is merged in. -/
def get_managed_objects_for_enumerate_cb (ec : Bool) (objects : ManagedObjectType)
    (transaction : Json) : Json :=
  if ec then transaction else objects.foldl gmoAddObject transaction

/-- The response envelope get_managed_objects_for_enumerate emits when the
last callback finishes (lines 117-119). -/
def enumerateEnvelope (data : Json) : Json :=
  Json.jobj [("message", Json.jstr "200 OK"), ("status", Json.jstr "ok"), ("data", data)]

/-- The property loop of the GetAll callback in handle_get (lines
636-652): with an empty search name every property is stored under its
name; otherwise a property whose name matches replaces the whole response
scalar.  No bool conversion happens here. -/
def handle_get_getall_props (propertyName : String)
    (properties : List (String × DbusRestVariant)) (response : Json) : Json :=
  properties.foldl
    (fun resp p =>
      if propertyName = "" then objSetKey resp p.1 (variantToJson p.2)
      else if p.1 = propertyName then variantToJson p.2
      else resp)
    response

/-- The response envelope handle_get emits when the last GetAll callback
finishes (lines 655-657). -/
def getEnvelope (data : Json) : Json :=
  Json.jobj [("status", Json.jstr "ok"), ("message", Json.jstr "200 OK"), ("data", data)]

/-- Claim C2, counterexample: in handle_get the decoded value of a bool
property requested via /attr/ is stored by the plain visitor assignment,
so a property currently true yields JSON true, not the integer 1 the claim
states. -/
theorem handle_get_bool_scalar_stays_bool :
    handle_get_getall_props "Powered" [("Powered", DbusRestVariant.boolean true)]
        (Json.jobj []) = Json.jbool true
    ∧ Json.jbool true ≠ Json.jint 1 :=
  ⟨rfl, fun h => Json.noConfusion h⟩

/-- Claim C2, amended: the bool-to-1/0 quirk holds in the enumerate path
(get_managed_objects_for_enumerate applies it at lines 104-110), but
handle_get emits the decoded bool unchanged as a JSON bool, both in the
GetAll-all-properties case and in the /attr/ scalar case. -/
theorem bool_quirk_enumerate_only (b : Bool) (path iface prop : String) (hp : prop ≠ "") :
    get_managed_objects_for_enumerate_cb false
        [(path, [(iface, [(prop, DbusRestVariant.boolean b)])])] (Json.jobj [])
        = Json.jobj [(path, Json.jobj [(prop, Json.jint (if b then 1 else 0))])]
    ∧ handle_get_getall_props prop [(prop, DbusRestVariant.boolean b)] (Json.jobj [])
        = Json.jbool b := by
  refine ⟨rfl, ?_⟩
  simp [handle_get_getall_props, hp, variantToJson]

theorem bool_quirk_enumerate_only_witness :
    get_managed_objects_for_enumerate_cb false
        [("/xyz/openbmc_project/state/host0",
          [("xyz.openbmc_project.State.Host", [("Powered", DbusRestVariant.boolean true)])])]
        (Json.jobj [])
        = Json.jobj [("/xyz/openbmc_project/state/host0",
            Json.jobj [("Powered", Json.jint 1)])]
    ∧ handle_get_getall_props "Powered" [("Powered", DbusRestVariant.boolean true)]
        (Json.jobj []) = Json.jbool true :=
  bool_quirk_enumerate_only true "/xyz/openbmc_project/state/host0"
    "xyz.openbmc_project.State.Host" "Powered" (by decide)

/-- The mapper's GetSubTree reply type (lines 127-129). -/
abbrev GetSubTreeType := List (String × List (String × List String))

/-- Lines 574-580: the flat_set of connection names collected from the
subtree.  Only membership and emptiness of the set are observed by the
rest of the handler; the sorted iteration order of the C++ flat_set is not
modelled. -/
def enumerateConnections (objectNames : GetSubTreeType) : List String :=
  ((objectNames.map (fun o => o.2.map (fun c => c.1))).flatten).dedup

/-- What the GetSubTree callback of handle_enumerate does next: answer
immediately, or fan out GetManagedObjects calls to the connections. -/
inductive EnumerateOutcome where
  | respond (r : Response)
  | fanout (connections : List String)

/-- The GetSubTree callback of handle_enumerate (lines 562-592): a bus
error answers 200 with the success envelope and an empty data object; an
empty connection set answers 404 with the untouched (null) body; otherwise
one GetManagedObjects call is spawned per connection. -/
def handle_enumerate_mapper_cb (ec : Bool) (objectNames : GetSubTreeType) :
    EnumerateOutcome :=
  if ec then .respond ⟨HttpStatus.ok, enumerateEnvelope (Json.jobj [])⟩
  else
    let connections := enumerateConnections objectNames
    if connections.length ≤ 0 then .respond ⟨HttpStatus.notFound, Json.null⟩
    else .fanout connections

/-- Claim C10: when GetSubTree fails with a bus error, handle_enumerate
responds 200 with {"message":"200 OK","status":"ok","data":{}} no matter
what reply data accompanied the error — never a 500 or a 404. -/
theorem enumerate_bus_error_responds_200_empty (objectNames : GetSubTreeType) :
    handle_enumerate_mapper_cb true objectNames =
      .respond ⟨HttpStatus.ok, enumerateEnvelope (Json.jobj [])⟩ := rfl

/-- Claim C9, counterexample: a successful GetSubTree with an empty
subtree makes handle_enumerate respond 404 with a null body, not the 200
success envelope the claim states. -/
theorem enumerate_empty_subtree_not_200 :
    handle_enumerate_mapper_cb false [] = .respond ⟨HttpStatus.notFound, Json.null⟩
    ∧ HttpStatus.notFound ≠ HttpStatus.ok :=
  ⟨rfl, by decide⟩

/-- Claim C9, amended: an enumerate whose GetSubTree succeeds but yields
no owning connections responds 404 Not Found; the 200-with-empty-data
envelope is what a GetSubTree bus error produces. -/
theorem enumerate_empty_subtree_responds_404 (objectNames : GetSubTreeType)
    (h : enumerateConnections objectNames = []) :
    handle_enumerate_mapper_cb false objectNames =
      .respond ⟨HttpStatus.notFound, Json.null⟩ := by
  simp [handle_enumerate_mapper_cb, h]

theorem enumerate_empty_subtree_responds_404_witness :
    handle_enumerate_mapper_cb false [] = .respond ⟨HttpStatus.notFound, Json.null⟩ :=
  enumerate_empty_subtree_responds_404 [] rfl

/-- The response state AsyncPutRequest works on: HTTP status, JSON body,
and the requested property name. -/
structure PutState where
  status : HttpStatus
  body : Json
  propertyName : String

/-- The success envelope the AsyncPutRequest constructor pre-fills into
res.json_value (lines 673-675). -/
def putSuccessEnvelope : Json :=
  Json.jobj [("status", Json.jstr "ok"), ("message", Json.jstr "200 OK"),
    ("data", Json.null)]

/-- AsyncPutRequest construction (lines 673-676) followed by the handler's
field assignments: default 200 status and the pre-filled success body. -/
def asyncPutRequestInit (propertyName : String) : PutState :=
  ⟨HttpStatus.ok, putSuccessEnvelope, propertyName⟩

/-- nlohmann json::empty(): true for null and for empty arrays/objects. -/
def jsonIsEmpty : Json → Bool
  | .null => true
  | .jobj [] => true
  | .jarr [] => true
  | _ => false

/-- The 403 body built in the AsyncPutRequest destructor (lines 687-692). -/
def forbiddenBody (name : String) : Json :=
  Json.jobj [("status", Json.jstr "error"), ("message", Json.jstr "403 Forbidden"),
    ("data", Json.jobj [("message",
      Json.jstr ("The specified property cannot be created: " ++ name))])]

/-- The AsyncPutRequest destructor (lines 677-696): on a 500 status the
body is first reset to an empty object; then, if the body is empty, the
status becomes 403 Forbidden with the cannot-be-created body. -/
def asyncPutFinalize (s : PutState) : PutState :=
  let s1 : PutState :=
    if s.status = HttpStatus.internalServerError then
      ⟨s.status, Json.jobj [], s.propertyName⟩
    else s
  if jsonIsEmpty s1.body then
    ⟨HttpStatus.forbidden, forbiddenBody s1.propertyName, s1.propertyName⟩
  else s1

/-- Claim C4, counterexample: in the matched-no-writable-property case
nothing ever touches the response, so the transaction finalizes with the
constructor's pre-filled success envelope — a 200 OK, not the claimed 403:
the body is never empty in that case. -/
theorem put_no_match_finalizes_200_success :
    asyncPutFinalize (asyncPutRequestInit "Powered") = asyncPutRequestInit "Powered"
    ∧ (asyncPutFinalize (asyncPutRequestInit "Powered")).status ≠ HttpStatus.forbidden :=
  ⟨rfl, by decide⟩

/-- Claim C4, amended: the 403 Forbidden with body
{"data":{"message":"The specified property cannot be created: <name>"}}
is emitted exactly when the transaction finalizes with
internal_server_error set (the destructor clears the body on a 500,
finds it empty, and replaces status and body); a PUT whose body was never
cleared — in particular the no-matching-property case, which keeps the
pre-filled success envelope — finalizes unchanged. -/
theorem put_forbidden_iff_error_status (s : PutState) (h : jsonIsEmpty s.body = false) :
    (s.status = HttpStatus.internalServerError →
      asyncPutFinalize s = ⟨HttpStatus.forbidden, forbiddenBody s.propertyName,
        s.propertyName⟩)
    ∧ (s.status ≠ HttpStatus.internalServerError → asyncPutFinalize s = s) := by
  constructor
  · intro he
    simp [asyncPutFinalize, he, jsonIsEmpty]
  · intro he
    simp [asyncPutFinalize, he, h]

theorem put_forbidden_iff_error_status_witness :
    asyncPutFinalize ⟨HttpStatus.internalServerError, putSuccessEnvelope, "Powered"⟩ =
      ⟨HttpStatus.forbidden, forbiddenBody "Powered", "Powered"⟩ :=
  (put_forbidden_iff_error_status
    ⟨HttpStatus.internalServerError, putSuccessEnvelope, "Powered"⟩ (by decide)).1 rfl

/-- An `<arg>` element of introspection XML. -/
structure XmlArgNode where
  name : String
  direction : String
  type : String

/-- A `<method>` element with its `<arg>` children. -/
structure XmlMethodNode where
  name : String
  args : List XmlArgNode

/-- An `<interface>` element with its `<method>` children. -/
structure XmlInterfaceNode where
  name : String
  methods : List XmlMethodNode

/-- The success envelope the async_send reply callback of
find_action_on_interface stores (lines 481-483). -/
def actionSuccessEnvelope : Json :=
  Json.jobj [("status", Json.jstr "ok"), ("message", Json.jstr "200 OK"),
    ("data", Json.null)]

/-- The argument loop of find_action_on_interface (lines 455-473).  Each
pass handles argument_node and then sets
`argument_node = method_node->NextSiblingElement("arg")` (line 472) — the
next "arg"-named sibling of the METHOD element, not of the argument.  In
introspection XML a method's siblings are other method/signal/property
elements, never "arg" elements, so that lookup yields null and the loop
body runs at most once: only the first `<arg>` child is ever examined.
A direction="in" argument with the JSON argument iterator already at end,
or whose encoding fails, returns with setErrorStatus. -/
def encodeMethodInArgs (fuel : Nat) (args : List XmlArgNode) (jsonArgs : List Json) :
    Except Unit (List BusTok) :=
  match args.head? with
  | none => .ok []
  | some a =>
    if a.direction = "in" then
      match jsonArgs.head? with
      | none => .error ()
      | some j =>
        match convert_json_to_dbus fuel [] a.type j with
        | .error _ => .error ()
        | .ok toks => .ok toks
    else .ok []

/-- The interface scan of find_action_on_interface's introspect callback
(lines 432-490): per interface, the first method whose name matches is
taken (the break at line 485 leaves only the method loop, so later
interfaces are still scanned and may dispatch again); a missing or
unencodable argument returns out of the whole callback with
setErrorStatus.  On success, the list of dispatched (interface, encoded
arguments) calls. -/
def scanInterfacesForAction (fuel : Nat) (methodName : String) (jsonArgs : List Json) :
    List XmlInterfaceNode → Except Unit (List (String × List BusTok))
  | [] => .ok []
  | iface :: rest =>
    match iface.methods.find? (fun mth => mth.name == methodName) with
    | none => scanInterfacesForAction fuel methodName jsonArgs rest
    | some mth =>
      match encodeMethodInArgs fuel mth.args jsonArgs with
      | .error _ => .error ()
      | .ok toks =>
        match scanInterfacesForAction fuel methodName jsonArgs rest with
        | .error e => .error e
        | .ok ds => .ok ((iface.name, toks) :: ds)

/-- The InProgressActionData destructor (lines 134-142): a 500 status
clears whatever JSON accumulated, then the response is ended. -/
def inProgressActionFinalize (r : Response) : Response :=
  if r.status = HttpStatus.internalServerError then ⟨r.status, Json.jobj []⟩ else r

/-- The response an action request produces for one connection whose
introspection returned `ifaces`: the interface scan either sets the error
status, or dispatches its calls, whose (uniform, `sendEc`) async_send
replies either set the error status or store the success envelope
(lines 474-484); the reply lambdas keep the transaction alive, so the
destructor — and with it the response — runs after the replies.  With no
dispatch the initial state (200, null body) is finalized unchanged. -/
def actionCallbackResponse (fuel : Nat) (ifaces : List XmlInterfaceNode)
    (methodName : String) (jsonArgs : List Json) (sendEc : Bool) : Response :=
  match scanInterfacesForAction fuel methodName jsonArgs ifaces with
  | .error _ => inProgressActionFinalize ⟨HttpStatus.internalServerError, Json.null⟩
  | .ok [] => inProgressActionFinalize ⟨HttpStatus.ok, Json.null⟩
  | .ok (_ :: _) =>
    if sendEc then inProgressActionFinalize ⟨HttpStatus.internalServerError, Json.null⟩
    else inProgressActionFinalize ⟨HttpStatus.ok, actionSuccessEnvelope⟩

/-- Claim C7, counterexample: posting body [1] to a matching
zero-argument method does not return 500 — the method has no `<arg>`
children, so the argument loop never compares counts, the call is
dispatched with no encoded arguments, and the success envelope is
returned. -/
theorem action_surplus_arg_returns_success :
    actionCallbackResponse 4 [⟨"xyz.openbmc_project.Control",
        [⟨"PowerOn", []⟩]⟩] "PowerOn" [Json.juint 1] false
      = ⟨HttpStatus.ok, actionSuccessEnvelope⟩
    ∧ HttpStatus.ok ≠ HttpStatus.internalServerError :=
  ⟨rfl, by decide⟩

/-- Claim C7, amended: a 500 is produced when a direction="in" argument is
reached with the JSON argument array exhausted (or its encoding fails);
surplus JSON arguments are never counted, so body [1] posted to a matching
zero-argument method dispatches and returns the success envelope
{"status":"ok","message":"200 OK","data":null}, exactly as body [] does. -/
theorem action_500_only_on_missing_args (fuel : Nat) (jsonArgs : List Json) (ty : String) :
    actionCallbackResponse fuel [⟨"xyz.openbmc_project.Control",
        [⟨"PowerOn", []⟩]⟩] "PowerOn" jsonArgs false
      = ⟨HttpStatus.ok, actionSuccessEnvelope⟩
    ∧ actionCallbackResponse fuel [⟨"xyz.openbmc_project.Control",
        [⟨"PowerOn", [⟨"state", "in", ty⟩]⟩]⟩] "PowerOn" [] false
      = ⟨HttpStatus.internalServerError, Json.jobj []⟩ :=
  ⟨rfl, rfl⟩

/-- The three HTTP verbs the /xyz/<path> route accepts. -/
inductive HttpMethod where
  | GET
  | PUT
  | POST
deriving DecidableEq

/-- Where the /xyz/<path> route dispatches a request. -/
inductive XyzDispatch where
  | get (objectPath property : String)
  | put (objectPath property : String)
  | action (objectPath method : String)
  | enumerate (objectPath : String)
  | list (objectPath : String)
  | methodNotAllowed
deriving DecidableEq

/-- substr(0, n). -/
def strTake (s : String) (n : Nat) : String :=
  ⟨s.data.take n⟩

/-- substr(n, length()): everything from index n on. -/
def strDropN (s : String) (n : Nat) : String :=
  ⟨s.data.drop n⟩

/-- pop_back(). -/
def strPopBack (s : String) : String :=
  ⟨s.data.dropLast⟩

/-- erase(end()-n, end()). -/
def strEraseRight (s : String) (n : Nat) : String :=
  ⟨s.data.take (s.data.length - n)⟩

/-- boost::ends_with. -/
def strEndsWith (s t : String) : Bool :=
  t.data.isSuffixOf s.data

/-- std::string::find on character lists: the index of the first
occurrence of pat, if any. -/
def findSubstrL (pat : List Char) : List Char → Option Nat
  | [] => if pat.isPrefixOf [] then some 0 else none
  | c :: rest =>
    if pat.isPrefixOf (c :: rest) then some 0
    else (findSubstrL pat rest).map (fun n => n + 1)

/-- std::string::find. -/
def strFind (s pat : String) : Option Nat :=
  findSubstrL pat.data s.data

/-- pat occurs in s at index i. -/
abbrev OccursAt (s pat : List Char) (i : Nat) : Prop :=
  pat.isPrefixOf (s.drop i) = true

lemma findSubstrL_first (pat : List Char) : ∀ (s : List Char) (i : Nat),
    pat.isPrefixOf (s.drop i) = true →
    (∀ j, j < i → ¬ pat.isPrefixOf (s.drop j) = true) →
    findSubstrL pat s = some i := by
  intro s
  induction s with
  | nil =>
    intro i hocc hmin
    have hi : i = 0 := by
      by_contra hne
      exact hmin 0 (Nat.pos_of_ne_zero hne) (by simpa using hocc)
    subst hi
    simp only [List.drop_nil] at hocc
    simp [findSubstrL, hocc]
  | cons c rest ih =>
    intro i hocc hmin
    by_cases hp : pat.isPrefixOf (c :: rest) = true
    · have hi : i = 0 := by
        by_contra hne
        exact hmin 0 (Nat.pos_of_ne_zero hne) (by simpa using hp)
      subst hi
      simp [findSubstrL, hp]
    · have hi : i ≠ 0 := by
        intro h0
        subst h0
        simp only [List.drop_zero] at hocc
        exact hp hocc
      obtain ⟨i', rfl⟩ : ∃ i', i = i' + 1 := ⟨i - 1, by omega⟩
      have hocc' : pat.isPrefixOf (rest.drop i') = true := by
        simpa using hocc
      have hmin' : ∀ j, j < i' → ¬ pat.isPrefixOf (rest.drop j) = true := by
        intro j hj hpre
        exact hmin (j + 1) (by omega) (by simpa using hpre)
      rw [findSubstrL, if_neg hp, ih i' hocc' hmin']
      rfl

/-- The "/attr/" separator. -/
def attrSeparator : String := "/attr/"

/-- The "/action/" separator. -/
def actionSeparator : String := "/action/"

/-- The /xyz/<path> route body (lines 866-916): prepend "/xyz/", trim one
trailing slash, split at "/attr/" when present (recomputing the object
path from the untrimmed path), then branch on the verb; POST splits at
"/action/" or falls through to 405, GET recognises the /enumerate and
/list suffixes on the (possibly attr-rewritten) object path. -/
def xyzDispatch (method : HttpMethod) (path : String) : XyzDispatch :=
  let objectPath0 := "/xyz/" ++ path
  let objectPath1 := if strEndsWith objectPath0 "/" then strPopBack objectPath0
    else objectPath0
  let split :=
    match strFind path attrSeparator with
    | some i => ("/xyz/" ++ strTake path i, strDropN path (i + 6))
    | none => (objectPath1, "")
  match method with
  | .POST =>
    match strFind path actionSeparator with
    | some i => .action ("/xyz/" ++ strTake path i) (strDropN path (i + 8))
    | none => .methodNotAllowed
  | .GET =>
    if strEndsWith split.1 "/enumerate" then .enumerate (strEraseRight split.1 10)
    else if strEndsWith split.1 "/list" then .list (strEraseRight split.1 5)
    else .get split.1 split.2
  | .PUT => .put split.1 split.2

/-- Claim C8, counterexample: with two "/attr/" (or "/action/")
separators in the path, the dispatcher does not split at the last one:
`path.find` returns the first occurrence, so "a/attr/b/attr/c" resolves to
object path "/xyz/a" with property "b/attr/c", not "/xyz/a/attr/b" with
property "c". -/
theorem xyz_dispatch_not_last_separator :
    xyzDispatch .GET "a/attr/b/attr/c" ≠ .get "/xyz/a/attr/b" "c"
    ∧ xyzDispatch .POST "a/action/b/action/c" ≠ .action "/xyz/a/action/b" "c" := by
  constructor
  · decide
  · decide

/-- Claim C8, amended: when the path contains "/attr/" (for GET/PUT) or
"/action/" (for POST) — once or several times — the dispatcher splits at
the FIRST occurrence: the object path is "/xyz/" plus everything before
that first separator and the property/method name is everything after it
(later separators stay inside the property/method name). -/
theorem xyz_dispatch_splits_at_first_separator :
    (∀ (p : String) (i : Nat), OccursAt p.data attrSeparator.data i →
      (∀ j, j < i → ¬ OccursAt p.data attrSeparator.data j) →
      xyzDispatch .PUT p = .put ("/xyz/" ++ strTake p i) (strDropN p (i + 6)))
    ∧ (∀ (p : String) (i : Nat), OccursAt p.data actionSeparator.data i →
      (∀ j, j < i → ¬ OccursAt p.data actionSeparator.data j) →
      xyzDispatch .POST p = .action ("/xyz/" ++ strTake p i) (strDropN p (i + 8))) := by
  constructor
  · intro p i hocc hmin
    have hfind : strFind p attrSeparator = some i :=
      findSubstrL_first attrSeparator.data p.data i hocc hmin
    simp [xyzDispatch, hfind]
  · intro p i hocc hmin
    have hfind : strFind p actionSeparator = some i :=
      findSubstrL_first actionSeparator.data p.data i hocc hmin
    simp [xyzDispatch, hfind]

theorem xyz_dispatch_splits_at_first_separator_witness :
    xyzDispatch .PUT "a/attr/b/attr/c" =
      .put ("/xyz/" ++ strTake "a/attr/b/attr/c" 1) (strDropN "a/attr/b/attr/c" 7) :=
  xyz_dispatch_splits_at_first_separator.1 "a/attr/b/attr/c" 1 (by decide) (by decide)

/-- The state of one fan-out transaction: whether the shared handle is the
null shared_ptr (the /bus/system/<connection>/ route passes a
default-constructed one, line 921) or a live make_shared one; the number
of outstanding callbacks still holding a copy; and how many times a
response has been emitted. -/
structure FanoutState where
  nullHandle : Bool
  pending : Nat
  emitted : Nat

/-- transaction.use_count() as evaluated inside a running callback, after
it spawned `spawned` further calls: copies of a null shared_ptr share no
control block, so its use_count is 0; a live handle counts the running
callback, the other outstanding callbacks and the fresh copies. -/
def useCountAtCheck (s : FanoutState) (spawned : Nat) : Nat :=
  if s.nullHandle then 0 else s.pending + spawned

/-- One reactor event of the fan-out pattern (lines 16-61, 80-124,
628-661): a pending callback runs to completion, spawning `spawned`
further calls that each copy the handle, emits the response if it observes
use_count() == 1, and then drops its own copy.  The single-threaded
reactor runs callbacks one at a time. -/
inductive FanoutStep : FanoutState → FanoutState → Prop
  | callback (s : FanoutState) (spawned : Nat) (h : 1 ≤ s.pending) :
      FanoutStep s ⟨s.nullHandle, s.pending - 1 + spawned,
        s.emitted + (if useCountAtCheck s spawned = 1 then 1 else 0)⟩

/-- Zero or more reactor events. -/
def FanoutReachable : FanoutState → FanoutState → Prop :=
  Relation.ReflTransGen FanoutStep

/-- For a live (make_shared) transaction handle the spec's invariant does
hold: along every run that starts with n ≥ 1 outstanding callbacks, the
response has been emitted exactly once as soon as the fan-out has drained
and never before — the emitting event is the one that sees the refcount at
1 (last callback, nothing spawned). -/
theorem fanout_exactly_once_live (n : Nat) (hn : 1 ≤ n) (s : FanoutState)
    (hr : FanoutReachable ⟨false, n, 0⟩ s) :
    s.nullHandle = false ∧ s.emitted = (if s.pending = 0 then 1 else 0) := by
  induction hr with
  | refl =>
    have : n ≠ 0 := by omega
    exact ⟨rfl, by simp [this]⟩
  | @tail b c _ hstep ih =>
    obtain ⟨hnull, hemit⟩ := ih
    cases hstep with
    | callback spawned hp =>
      refine ⟨hnull, ?_⟩
      simp only [useCountAtCheck, hnull, Bool.false_eq_true, if_false]
      have hb0 : b.pending ≠ 0 := by omega
      rw [if_neg hb0] at hemit
      by_cases hone : b.pending + spawned = 1
      · have hp1 : b.pending = 1 := by omega
        have hs0 : spawned = 0 := by omega
        subst hs0
        simp [hone, hp1, hemit]
      · have hnz : b.pending - 1 + spawned ≠ 0 := by omega
        simp [hone, hemit, hnz]

/-- Claim C1 (code bug): the /bus/system/<connection>/ route (lines
918-923) passes a default-constructed — null — shared_ptr as the shared
introspect-walk transaction.  Copies of a null shared_ptr keep use_count
0, so no callback ever observes use_count() == 1: here the route's single
introspect callback completes (e.g. with a bus error, spawning nothing)
and the fan-out drains with the response emitted zero times, where the
claim says exactly once.  For the make_shared transactions of the other
fan-out handlers the invariant holds: see fanout_exactly_once_live. -/
theorem introspect_walk_null_transaction_never_responds :
    FanoutStep ⟨true, 1, 0⟩ ⟨true, 0, 0⟩
    ∧ (FanoutState.mk true 0 0).emitted = 0 :=
  ⟨FanoutStep.callback ⟨true, 1, 0⟩ 0 (by decide), rfl⟩

end Bmcweb
